import Mathlib

/-!
Verification development for the investigation-scratchpad core of the
kpi-agent repository (`src/agent/scratchpad.py`, the finding-extraction
phase of `src/agent/run_agent.py`, and the SQL-execution wrapper
`src/tools/run_sql.py`).

The Python code is shallowly embedded: Python strings are modelled as
`String` / `List Char` (with the ASCII fragment of `str.lower`, `str.strip`,
`str.split`, `str.startswith` reimplemented below on character lists, matching
CPython semantics for the ASCII inputs the program manipulates), Python's
JSON-compatible values as the inductive `JVal` (whose objects are
insertion-ordered association lists, as CPython dicts are), `datetime`
instants as the `PyDateTime` structure, and raising Python code as
`Except PyErr`.  All definitions are executable.
-/

/-- ASCII fragment of CPython `str.lower` on a single character: the source
only lowercases ASCII letters (importance names, markdown heading sniffing). -/
def pyCharLower (c : Char) : Char :=
  if 'A' ≤ c ∧ c ≤ 'Z' then Char.ofNat (c.toNat + 32) else c

/-- The six ASCII characters CPython `str.strip()` removes (the whitespace
actually reachable in this program's strings). -/
def isPySpace (c : Char) : Bool :=
  c = ' ' ∨ c = '\t' ∨ c = '\n' ∨ c = '\r' ∨ c = Char.ofNat 11 ∨ c = Char.ofNat 12

/-- Drop the longest suffix of characters satisfying `p` (the right half of
CPython `str.strip`). -/
def dropTrail (p : Char → Bool) : List Char → List Char
  | [] => []
  | c :: cs =>
    match dropTrail p cs with
    | [] => if p c then [] else [c]
    | r => c :: r

/-- Character-list core of CPython `str.strip(chars)` / `str.strip()`:
remove leading and trailing characters satisfying `p`. -/
def stripChars (p : Char → Bool) (s : List Char) : List Char :=
  dropTrail p (s.dropWhile p)

/-- Locate the first occurrence of the (non-empty) separator `sep` in `s`:
returns the part before it and the part after it, as CPython `str.split`
scans left to right over non-overlapping occurrences. -/
def findSplit (sep : List Char) : List Char → Option (List Char × List Char)
  | [] => none
  | c :: rest =>
    if sep.isPrefixOf (c :: rest) then some ([], (c :: rest).drop sep.length)
    else
      match findSplit sep rest with
      | some (pre, post) => some (c :: pre, post)
      | none => none

/-- Fueled worker for `splitSeq`; the fuel is only a structural-recursion
device, `splitSeq` always supplies enough. -/
def splitSeqFuel (sep : List Char) : Nat → List Char → List (List Char)
  | 0, s => [s]
  | fuel + 1, s =>
    match findSplit sep s with
    | none => [s]
    | some (pre, post) => pre :: splitSeqFuel sep fuel post

/-- Character-list core of CPython `str.split(sep)` for a non-empty
separator: split on every non-overlapping occurrence, keeping empty pieces,
always returning at least one piece. -/
def splitSeq (sep s : List Char) : List (List Char) :=
  if sep.isEmpty then [s] else splitSeqFuel sep s.length s

/-- CPython `needle in hay` on strings (substring containment); the empty
needle is contained in everything. -/
def containsSeq (needle hay : List Char) : Bool :=
  needle.isEmpty || (findSplit needle hay).isSome

/-- CPython `str.lower`, ASCII fragment. -/
def pyLower (s : String) : String := ⟨s.data.map pyCharLower⟩

/-- CPython `str.strip()` (no argument: strip whitespace from both ends). -/
def pyStrip (s : String) : String := ⟨stripChars isPySpace s.data⟩

/-- CPython `str.strip("#")`: strip `#` characters from both ends. -/
def pyStripHash (s : String) : String := ⟨stripChars (fun c => c = '#') s.data⟩

/-- CPython `str.split(sep)` for a non-empty separator. -/
def pySplit (sep s : String) : List String :=
  (splitSeq sep.data s.data).map (fun l => ⟨l⟩)

/-- CPython `str.startswith` with a tuple of candidate prefixes. -/
def startswithAny (s : String) (ps : List String) : Bool :=
  ps.any (fun p => p.data.isPrefixOf s.data)

/-- CPython `sub in s` on strings. -/
def pyContains (needle hay : String) : Bool := containsSeq needle.data hay.data

/-- CPython `sep.join(parts)`. -/
def pyJoin (sep : String) (parts : List String) : String :=
  ⟨List.intercalate sep.data (parts.map String.data)⟩

def digitsRevChars : Nat → Nat → List Char
  | 0, _ => []
  | w + 1, n => Char.ofNat (48 + n % 10) :: digitsRevChars w (n / 10)

/-- Zero-padded fixed-width decimal rendering (`"%04d"` etc. as used by
CPython `datetime.isoformat`). -/
def padDigits (w n : Nat) : List Char := (digitsRevChars w n).reverse

def readDigitsRev : List Char → Nat
  | [] => 0
  | c :: cs => (c.toNat - 48) + 10 * readDigitsRev cs

/-- Read a most-significant-first run of decimal digit characters. -/
def readDigits (cs : List Char) : Nat := readDigitsRev cs.reverse

def isAsciiDigit (c : Char) : Bool := '0' ≤ c ∧ c ≤ '9'

/-- A CPython naive `datetime.datetime` instant (microsecond precision, no
time zone — the program only ever uses `datetime.now()`). -/
structure PyDateTime where
  year : Nat
  month : Nat
  day : Nat
  hour : Nat
  minute : Nat
  second : Nat
  microsecond : Nat
deriving DecidableEq, Repr

/-- CPython `calendar`-style leap-year rule used by `datetime`. -/
def isLeapYear (y : Nat) : Bool := y % 4 = 0 ∧ (y % 100 ≠ 0 ∨ y % 400 = 0)

/-- Number of days in a month, as validated by the `datetime` constructor. -/
def daysInMonth (y m : Nat) : Nat :=
  if m = 2 then (if isLeapYear y then 29 else 28)
  else if m = 4 ∨ m = 6 ∨ m = 9 ∨ m = 11 then 30
  else 31

/-- The field invariants every constructed CPython `datetime` satisfies
(`MINYEAR = 1`, `MAXYEAR = 9999`, calendar-valid day, clock-valid time). -/
def validPyDateTime (t : PyDateTime) : Bool :=
  1 ≤ t.year ∧ t.year ≤ 9999 ∧ 1 ≤ t.month ∧ t.month ≤ 12 ∧ 1 ≤ t.day ∧
    t.day ≤ daysInMonth t.year t.month ∧ t.hour ≤ 23 ∧ t.minute ≤ 59 ∧
    t.second ≤ 59 ∧ t.microsecond ≤ 999999

/-- CPython `datetime.isoformat()`: `YYYY-MM-DDTHH:MM:SS`, plus `.ffffff`
exactly when the microsecond field is non-zero. -/
def isoformatChars (t : PyDateTime) : List Char :=
  padDigits 4 t.year ++ '-' ::
    (padDigits 2 t.month ++ '-' ::
      (padDigits 2 t.day ++ 'T' ::
        (padDigits 2 t.hour ++ ':' ::
          (padDigits 2 t.minute ++ ':' ::
            (padDigits 2 t.second ++
              (if t.microsecond = 0 then []
               else '.' :: padDigits 6 t.microsecond))))))

def isoformat (t : PyDateTime) : String := ⟨isoformatChars t⟩

/-- Read exactly `w` decimal digits from the front of `cs`. -/
def parseFixedNat (w : Nat) (cs : List Char) : Option (Nat × List Char) :=
  let ds := cs.take w
  if ds.length = w ∧ ds.all isAsciiDigit then some (readDigits ds, cs.drop w)
  else none

def expectChar (c : Char) : List Char → Option (List Char)
  | [] => none
  | d :: rest => if d = c then some rest else none

/-- Parse the optional fractional-second part emitted by `isoformat` (empty,
or a dot followed by exactly six digits). -/
def parseMicro : List Char → Option Nat
  | [] => some 0
  | c :: rest =>
    if c = '.' then
      match parseFixedNat 6 rest with
      | some (u, []) => some u
      | _ => none
    else none

/-- CPython `datetime.fromisoformat` on the strings `isoformat` emits
(pre-3.11 CPython accepts only such strings); range-validates the parsed
fields exactly as the `datetime` constructor does, returning `none` where
CPython raises `ValueError`. -/
def fromisoformatChars (cs : List Char) : Option PyDateTime := do
  let (y, r1) ← parseFixedNat 4 cs
  let r2 ← expectChar '-' r1
  let (mo, r3) ← parseFixedNat 2 r2
  let r4 ← expectChar '-' r3
  let (d, r5) ← parseFixedNat 2 r4
  let r6 ← expectChar 'T' r5
  let (h, r7) ← parseFixedNat 2 r6
  let r8 ← expectChar ':' r7
  let (mi, r9) ← parseFixedNat 2 r8
  let r10 ← expectChar ':' r9
  let (s, r11) ← parseFixedNat 2 r10
  let u ← parseMicro r11
  let t : PyDateTime := ⟨y, mo, d, h, mi, s, u⟩
  if validPyDateTime t then some t else none

def fromisoformat (s : String) : Option PyDateTime := fromisoformatChars s.data

/-- The CPython exception kinds reachable in the embedded code.
`jsonDecodeError` is `json.JSONDecodeError` (raised by `json.loads` on
invalid JSON); the others are the built-in exceptions of the same names. -/
inductive PyErr where
  | jsonDecodeError
  | attributeError
  | keyError
  | typeError
  | valueError
deriving DecidableEq, Repr

/-- A JSON-compatible CPython value (what `json.loads` returns and the
scratchpad stores).  Objects/dicts are insertion-ordered association lists,
matching CPython dict semantics; numbers are modelled as integers (the
program never stores fractional numbers in the round-tripped fields). -/
inductive JVal where
  | null
  | bool (b : Bool)
  | num (n : Int)
  | str (s : String)
  | arr (xs : List JVal)
  | obj (kvs : List (String × JVal))

/-- First-match lookup in an insertion-ordered association list (CPython
`d[k]` / `d.get(k)`; any dict CPython builds has unique keys, so the first
match is the only one). -/
def lookupKey {α : Type} : List (String × α) → String → Option α
  | [], _ => none
  | (k', v) :: rest, k => if k' = k then some v else lookupKey rest k

/-- CPython `d[k] = v`: overwrite in place when the key is present (keeping
its original position), otherwise append at the end. -/
def dictSet {α : Type} : List (String × α) → String → α → List (String × α)
  | [], k, v => [(k, v)]
  | (k', v') :: rest, k, v =>
    if k' = k then (k, v) :: rest else (k', v') :: dictSet rest k v

/-- CPython truthiness of a JSON-compatible value (`if x:`). -/
def pyTruthy : JVal → Bool
  | .null => false
  | .bool b => b
  | .num n => decide (n ≠ 0)
  | .str s => !s.data.isEmpty
  | .arr xs => !xs.isEmpty
  | .obj kvs => !kvs.isEmpty

/-- CPython subscript `v[k]` on a JSON value: `KeyError` when the key is
missing from a dict, `TypeError` when `v` is not a dict. -/
def pySubscript (v : JVal) (k : String) : Except PyErr JVal :=
  match v with
  | .obj kvs =>
    match lookupKey kvs k with
    | some x => .ok x
    | none => .error .keyError
  | _ => .error .typeError

/-- CPython `v.lower()` on a JSON value: `AttributeError` unless `v` is a
string. -/
def pyLowerJ (v : JVal) : Except PyErr String :=
  match v with
  | .str s => .ok (pyLower s)
  | _ => .error .attributeError

/-- CPython `list(v)` coercion point used by `from_json`'s restore of the
`actions`/`findings` fields: the reference code stores whatever JSON value
was present verbatim; a non-list value would only make *later* list
operations fail, which we model as an immediate `TypeError` since no claim
(and no output of `to_dict`) exercises that corner. -/
def asPyList (v : JVal) : Except PyErr (List JVal) :=
  match v with
  | .arr xs => .ok xs
  | _ => .error .typeError

/-- Same deferred-failure modelling as `asPyList`, for the `context` dict. -/
def asPyDict (v : JVal) : Except PyErr (List (String × JVal)) :=
  match v with
  | .obj kvs => .ok kvs
  | _ => .error .typeError

/-- The in-memory scratchpad state (`Scratchpad.__init__`): action log,
finding store, context dict, session start instant. -/
structure Scratchpad where
  actions : List JVal
  findings : List JVal
  context : List (String × JVal)
  start_time : PyDateTime

/-- The action dict built by `Scratchpad.log_action` before appending. -/
def actionEntry (now : PyDateTime) (action_type : String) (description : String)
    (details : Option (List (String × JVal))) : JVal :=
  .obj [
    ("timestamp", .str (isoformat now)),
    ("type", .str action_type),
    ("description", .str description),
    ("details", .obj (details.getD []))]

/-- The finding dict built by `Scratchpad.log_finding` before appending. -/
def findingEntry (now : PyDateTime) (title : String) (description : String)
    (importance : String) (related_actions : Option (List Int))
    (evidence : Option (List (String × JVal))) : JVal :=
  .obj [
    ("timestamp", .str (isoformat now)),
    ("title", .str title),
    ("description", .str description),
    ("importance", .str importance),
    ("related_actions", .arr ((related_actions.getD []).map JVal.num)),
    ("evidence", .obj (evidence.getD []))]

namespace Scratchpad

/-- `Scratchpad()` — empty logs, context, and the construction instant. -/
def init (now : PyDateTime) : Scratchpad := ⟨[], [], [], now⟩

/-- `Scratchpad.log_action`: append one timestamped action entry.  `details`
is `None`-defaulted to an empty dict (`details or {}`); the wall-clock
timestamp is passed explicitly. -/
def log_action (s : Scratchpad) (now : PyDateTime) (action_type : String)
    (description : String) (details : Option (List (String × JVal))) :
    Scratchpad :=
  { s with actions := s.actions ++ [actionEntry now action_type description details] }

/-- `Scratchpad.log_finding`: append one timestamped finding entry; the
importance string is stored verbatim, `related_actions`/`evidence` default
to empty containers. -/
def log_finding (s : Scratchpad) (now : PyDateTime) (title : String)
    (description : String) (importance : String)
    (related_actions : Option (List Int))
    (evidence : Option (List (String × JVal))) : Scratchpad :=
  { s with
    findings := s.findings ++
      [findingEntry now title description importance related_actions evidence] }

/-- `Scratchpad.add_context`: `self.context[key] = value`. -/
def add_context (s : Scratchpad) (key : String) (value : JVal) : Scratchpad :=
  { s with context := dictSet s.context key value }

/-- `Scratchpad.get_action_history`: the full action log. -/
def get_action_history (s : Scratchpad) : List JVal := s.actions

/-- The `importance_levels` dict local to `get_findings`. -/
def importance_levels : List (String × Nat) :=
  [("low", 0), ("medium", 1), ("high", 2), ("critical", 3)]

/-- `importance_levels.get(k, 0)`. -/
def getLevel (k : String) : Nat := (lookupKey importance_levels k).getD 0

/-- One evaluation of the filter condition of `get_findings`'s list
comprehension (`importance_levels.get(finding["importance"].lower(), 0) >=
min_level`), with the exceptions a malformed entry would raise. -/
def findingPasses (minLevel : Nat) (f : JVal) : Except PyErr Bool := do
  let imp ← pySubscript f ("importance")
  let impStr ← pyLowerJ imp
  pure (decide (getLevel impStr ≥ minLevel))

/-- Left-to-right effectful filter, as a CPython list comprehension
evaluates: stops at the first raised exception. -/
def filterMExcept (p : JVal → Except PyErr Bool) : List JVal → Except PyErr (List JVal)
  | [] => .ok []
  | f :: rest => do
    let b ← p f
    let tail ← filterMExcept p rest
    pure (if b then f :: tail else tail)

/-- `Scratchpad.get_findings(min_importance)`: stable insertion-order filter
by importance threshold; unknown strings (threshold or stored) default to
level 0. -/
def get_findings (s : Scratchpad) (min_importance : String) :
    Except PyErr (List JVal) :=
  filterMExcept (findingPasses (getLevel (pyLower min_importance))) s.findings

/-- `Scratchpad.get_context(key)`: the whole dict for `None`, otherwise
`context.get(key)` (JSON `null` standing for CPython `None` on a miss). -/
def get_context (s : Scratchpad) (key : Option String) : JVal :=
  match key with
  | some k => (lookupKey s.context k).getD .null
  | none => .obj s.context

/-- The `high_importance_findings` comprehension of `get_summary`
(`[f["title"] for f in findings if f["importance"].lower() in
("high", "critical")]`), with its left-to-right evaluation and exception
behaviour on malformed entries. -/
def summaryHighTitles : List JVal → Except PyErr (List JVal)
  | [] => .ok []
  | f :: rest => do
    let imp ← pySubscript f ("importance")
    let impStr ← pyLowerJ imp
    if impStr = "high" ∨ impStr = "critical" then
      let t ← pySubscript f ("title")
      let tail ← summaryHighTitles rest
      pure (t :: tail)
    else
      summaryHighTitles rest

end Scratchpad

/-- Days from 1970-01-01 to the given civil date (proleptic Gregorian,
standard civil-from-days algorithm) — used to give `datetime` subtraction an
exact meaning. -/
def daysFromCivil (y m d : Int) : Int :=
  let y2 := if m ≤ 2 then y - 1 else y
  let era := (if 0 ≤ y2 then y2 else y2 - 399) / 400
  let yoe := y2 - era * 400
  let mp := (m + 9) % 12
  let doy := (153 * mp + 2) / 5 + d - 1
  let doe := yoe * 365 + yoe / 4 - yoe / 100 + doy
  era * 146097 + doe - 719468

/-- Microseconds since the epoch of a naive `datetime` (exact integer). -/
def epochMicros (t : PyDateTime) : Int :=
  daysFromCivil t.year t.month t.day * 86400000000 +
    (((t.hour : Int) * 3600 + t.minute * 60 + t.second) * 1000000 + t.microsecond)

namespace Scratchpad

/-- `Scratchpad.get_summary()`: freshly computed snapshot.  CPython's
`duration_seconds` is the float `(now - start_time).total_seconds()`; floats
have no faithful embedding here, so the same exact quantity is carried in
integer microseconds (`epochMicros now - epochMicros start`).  No claim
inspects this derived field (§3/§8 of the spec exempt it). -/
def get_summary (s : Scratchpad) (now : PyDateTime) : Except PyErr JVal := do
  let highs ← summaryHighTitles s.findings
  pure (.obj [
    ("start_time", .str (isoformat s.start_time)),
    ("end_time", .str (isoformat now)),
    ("duration_seconds", .num (epochMicros now - epochMicros s.start_time)),
    ("action_count", .num s.actions.length),
    ("finding_count", .num s.findings.length),
    ("context_keys", .arr (s.context.map (fun kv => .str kv.1))),
    ("high_importance_findings", .arr highs)])

/-- `Scratchpad.to_dict()`: the dictionary handed to `json.dumps` by
`to_json`.  `to_json` itself only serializes this tree to text
(`json.dumps(..., indent, default=str)`), and `json.loads` of that text
returns an equal tree, so the (de)serialization pair is modelled at the
tree level. -/
def to_dict (s : Scratchpad) (now : PyDateTime) : Except PyErr JVal := do
  let summ ← s.get_summary now
  pure (.obj [
    ("actions", .arr s.actions),
    ("findings", .arr s.findings),
    ("context", .obj s.context),
    ("start_time", .str (isoformat s.start_time)),
    ("summary", summ)])

/-- The restore phase of `Scratchpad.from_json` applied to the value
`json.loads` produced: `data.get(...)` with empty-container defaults for
the three collections, `datetime.fromisoformat` for a truthy `start_time`
(the fresh instance's construction time `now` otherwise), and an
`AttributeError` when the top-level value is not a JSON object (a list,
string, number, boolean or null has no `.get`). -/
def from_json_data (now : PyDateTime) (v : JVal) : Except PyErr Scratchpad :=
  match v with
  | .obj kvs => do
    let actions ← asPyList ((lookupKey kvs ("actions")).getD (.arr []))
    let findings ← asPyList ((lookupKey kvs ("findings")).getD (.arr []))
    let context ← asPyDict ((lookupKey kvs ("context")).getD (.obj []))
    let start ← match lookupKey kvs ("start_time") with
      | none => Except.ok now
      | some sv =>
        if pyTruthy sv then
          match sv with
          | .str stStr =>
            match fromisoformat stStr with
            | some t => Except.ok t
            | none => Except.error PyErr.valueError
          | _ => Except.error PyErr.typeError
        else Except.ok now
    Except.ok ⟨actions, findings, context, start⟩
  | _ => Except.error PyErr.attributeError

/-- `Scratchpad.from_json(text)`, with the external `json.loads` call
abstracted as its outcome: `Except.error .jsonDecodeError` when `text` is
not valid JSON (that exception propagates), otherwise the parsed tree. -/
def from_json (loaded : Except PyErr JVal) (now : PyDateTime) :
    Except PyErr Scratchpad := do
  let v ← loaded
  from_json_data now v

end Scratchpad

/-- One extracted finding: the `(title, description, importance)` triple the
extraction code hands to `scratchpad.log_finding`. -/
structure Finding where
  title : String
  description : String
  importance : String
deriving DecidableEq, Repr

/-- Per-section body of the section-header pass of `run_investigation`'s
finding extraction (run_agent.py lines 183–194): when the section's
lowercased text starts with one of the four tokens, a HIGH finding titled
with the stripped first line and described by the remaining lines rejoined
and stripped; otherwise nothing. -/
def sectionFinding (sec : String) : Option Finding :=
  if startswithAny (pyLower sec) ["finding", "anomal", "cause", "result"] then
    let lines := pySplit ("\n") sec
    some ⟨pyStrip (lines.headD ("")), pyStrip (pyJoin ("\n") lines.tail), ("high")⟩
  else none

/-- All findings the section-header pass logs, in order: `sectionFinding`
applied to each piece of the `"\n## "` split. -/
def extractSections (result : String) : List Finding :=
  (pySplit ("\n## ") result).filterMap sectionFinding

/-- The fallback finding logged when the section-header pass emitted nothing
(run_agent.py lines 199–204). -/
def fallbackFinding (result : String) : Finding :=
  ⟨("Investigation Results"), result, ("medium")⟩

/-- The complete extraction phase of `run_investigation` (lines 179–204):
the section-header pass, then the fallback exactly when that pass logged
nothing.  The `try` wrapper cannot actually raise (string splitting is
total), so extraction is a total function of the text. -/
def extractFindings (result : String) : List Finding :=
  let secs := extractSections result
  if secs.isEmpty then [fallbackFinding result] else secs

/-- The heading-scanning body of the verbose `on_agent_end` hook
(run_agent.py lines 152–162): guarded by `"finding" in result.lower() or
"anomaly" in result.lower()`; then every line whose stripped form starts
with a `#` marker and whose raw length exceeds 2 is logged as a MEDIUM
finding titled `line.strip("#").strip()`, with a fixed placeholder
description. -/
def verboseExtract (result : String) : List Finding :=
  if pyContains ("finding") (pyLower result) || pyContains ("anomaly") (pyLower result) then
    (pySplit ("\n") result).filterMap fun line =>
      if startswithAny (pyStrip line) ["#", "##", "###"] && decide (line.length > 2) then
        some ⟨pyStrip (pyStripHash line), ("(Extracted from agent output)"), ("medium")⟩
      else none
  else []

/-- Outcome of the external `execute_query` call (src/db/connection.py),
passed to `SQLTool.run` explicitly: either the raised exception's message,
or the fetched rows — each row a tuple of values, with `fields?` the
SQLAlchemy `_fields` column names when the driver provides them
(`hasattr(results[0], '_fields')`).  A `None` return (non-SELECT) behaves
like the empty row list under the falsy `if results:` check and is
modelled as such. -/
inductive ExecOutcome where
  | raised (msg : String)
  | rows (fields? : Option (List String)) (data : List (List JVal))

/-- The column-name inference of `SQLTool.run` for plain tuple rows
(run_sql.py lines 45–54): text between `select` and `from` of the
lowercased query, split on commas, last space-separated word of each piece,
`table.` qualifiers dropped; the inner bare `except:` catches the
`IndexError` when the query has no `select` and falls back to generic
`column_i` names. -/
def inferColumns (query : String) (width : Nat) : List String :=
  match pySplit ("select") (pyLower query) with
  | _ :: second :: _ =>
    let colPart := pyStrip ((pySplit ("from") second).headD (""))
    let cols := (pySplit (",") colPart).map
      (fun c => ((pySplit (" ") (pyStrip c)).getLastD ("")))
    cols.map (fun c => (pySplit (".") c).getLastD (""))
  | _ => (List.range width).map (fun i => ("column_") ++ toString i)

/-- Stand-in for `df.head(10).to_markdown(index=False)`: the pandas markdown
rendering is an external-library computation whose exact text neither the
spec's claims nor any caller logic inspects; modelled as a deterministic
function of the column names. -/
def previewOf (columns : List String) (_data : List (List JVal)) : String :=
  pyJoin (" | ") columns

/-- Stand-in for the pandas numeric-column statistics block
(min/max/mean/median floats): external floating-point computation, not
embedded; no claim inspects it. -/
def statisticsOf (_data : List (List JVal)) : JVal := .obj []

/-- `SQLTool.run` (src/tools/run_sql.py lines 21–97): the whole body runs
under `try/except Exception`, returning a structured result dict in every
case.  The success path (rows fetched) builds the detailed dict; an empty
(or `None`) result set yields the no-results dict; a raised execution
exception is caught and turned into the failure dict carrying the message
and the original query. -/
def SQLTool_run (query : String) (outcome : ExecOutcome) : JVal :=
  match outcome with
  | .raised e =>
    .obj [
      ("success", .bool false),
      ("error", .str e),
      ("query", .str query)]
  | .rows fs data =>
    if data.isEmpty then
      .obj [
        ("success", .bool true),
        ("row_count", .num 0),
        ("message", .str ("Query executed successfully, but no results were returned."))]
    else
      let columns := match fs with
        | some cols => cols
        | none => inferColumns query (data.headD []).length
      .obj [
        ("success", .bool true),
        ("row_count", .num data.length),
        ("columns", .arr (columns.map JVal.str)),
        ("preview", .str (previewOf columns data)),
        ("data", .arr (data.map (fun row => .obj (columns.zip row)))),
        ("statistics", statisticsOf data)]

/-- One scratchpad mutation with its wall-clock instant (the alphabet of
call sequences for the append-only claims). -/
inductive SpOp where
  | act (now : PyDateTime) (action_type : String) (descr : String)
      (details : Option (List (String × JVal)))
  | find (now : PyDateTime) (title : String) (descr : String)
      (importance : String) (related : Option (List Int))
      (evidence : Option (List (String × JVal)))
  | ctx (key : String) (value : JVal)

/-- Apply one logged call to the scratchpad. -/
def applyOp (s : Scratchpad) : SpOp → Scratchpad
  | .act now ty d det => s.log_action now ty d det
  | .find now t d imp r e => s.log_finding now t d imp r e
  | .ctx k v => s.add_context k v

/-- Run a call sequence left to right. -/
def replay (s : Scratchpad) : List SpOp → Scratchpad
  | [] => s
  | op :: ops => replay (applyOp s op) ops

/-- The action entry an op appends, if any. -/
def opAction : SpOp → Option JVal
  | .act now ty d det => some (actionEntry now ty d det)
  | _ => none

/-- The finding entry an op appends, if any. -/
def opFinding : SpOp → Option JVal
  | .find now t d imp r e => some (findingEntry now t d imp r e)
  | _ => none

/-- A finding entry is well-formed when it is a dict with a string
`importance` and a present `title` — true of everything `log_finding`
builds; `get_findings`/`get_summary` raise on anything else. -/
def wfFinding (f : JVal) : Bool :=
  match f with
  | .obj kvs =>
    (match lookupKey kvs ("importance") with
     | some (.str _) => true
     | _ => false) &&
    (lookupKey kvs ("title")).isSome
  | _ => false

def wfFindings (fs : List JVal) : Bool := fs.all wfFinding

/-- The importance ordinal `get_findings` effectively assigns to a
well-formed finding entry. -/
def findingLevel (f : JVal) : Nat :=
  match f with
  | .obj kvs =>
    match lookupKey kvs ("importance") with
    | some (.str s) => Scratchpad.getLevel (pyLower s)
    | _ => 0
  | _ => 0

-- Basic facts about the string model.

theorem dropTrail_cons_of_neg {p : Char → Bool} {c : Char} (h : p c = false)
    (l : List Char) : dropTrail p (c :: l) = c :: dropTrail p l := by
  cases hr : dropTrail p l with
  | nil => simp [dropTrail, hr, h]
  | cons x xs => simp [dropTrail, hr]

theorem findSplit_eq_append {sep : List Char} :
    ∀ {s pre post : List Char}, findSplit sep s = some (pre, post) →
      s = pre ++ sep ++ post := by
  intro s
  induction s with
  | nil => intro pre post h; simp [findSplit] at h
  | cons c rest ih =>
    intro pre post h
    rw [findSplit] at h
    by_cases hp : sep.isPrefixOf (c :: rest)
    · rw [if_pos hp] at h
      simp only [Option.some.injEq, Prod.mk.injEq] at h
      obtain ⟨rfl, rfl⟩ := h
      obtain ⟨t, ht⟩ := List.isPrefixOf_iff_prefix.mp hp
      rw [← ht, List.drop_left]
      simp
    · rw [if_neg hp] at h
      cases hf : findSplit sep rest with
      | none => rw [hf] at h; exact absurd h (by simp)
      | some pr =>
        obtain ⟨pre', post'⟩ := pr
        rw [hf] at h
        simp only [Option.some.injEq, Prod.mk.injEq] at h
        obtain ⟨rfl, rfl⟩ := h
        rw [ih hf]
        simp

theorem findSplit_post_length {sep : List Char} (hsep : sep ≠ [])
    {s pre post : List Char} (h : findSplit sep s = some (pre, post)) :
    post.length < s.length := by
  have := findSplit_eq_append h
  subst this
  have : 0 < sep.length := List.length_pos.mpr hsep
  simp only [List.length_append]
  omega

theorem splitSeqFuel_adequate {sep : List Char} (hsep : sep ≠ []) :
    ∀ fuel₁ fuel₂ s, s.length ≤ fuel₁ → s.length ≤ fuel₂ →
      splitSeqFuel sep fuel₁ s = splitSeqFuel sep fuel₂ s := by
  intro fuel₁
  induction fuel₁ with
  | zero =>
    intro fuel₂ s h1 _
    have : s = [] := List.length_eq_zero.mp (Nat.le_zero.mp h1)
    subst this
    cases fuel₂ with
    | zero => rfl
    | succ f => simp [splitSeqFuel, findSplit]
  | succ f₁ ih =>
    intro fuel₂ s h1 h2
    cases fuel₂ with
    | zero =>
      have : s = [] := List.length_eq_zero.mp (Nat.le_zero.mp h2)
      subst this
      simp [splitSeqFuel, findSplit]
    | succ f₂ =>
      cases hf : findSplit sep s with
      | none => simp only [splitSeqFuel, hf]
      | some pr =>
        obtain ⟨pre, post⟩ := pr
        have hlt := findSplit_post_length hsep hf
        simp only [splitSeqFuel, hf]
        rw [ih f₂ post (by omega) (by omega)]

theorem splitSeq_of_none {sep s : List Char} (h : findSplit sep s = none) :
    splitSeq sep s = [s] := by
  rw [splitSeq]
  by_cases hsep : sep.isEmpty
  · rw [if_pos hsep]
  · rw [if_neg hsep]
    cases hl : s.length with
    | zero => rfl
    | succ n => rw [splitSeqFuel, h]

theorem splitSeq_of_some {sep s pre post : List Char} (hsep : sep ≠ [])
    (h : findSplit sep s = some (pre, post)) :
    splitSeq sep s = pre :: splitSeq sep post := by
  have hne : sep.isEmpty = false := by
    cases sep with
    | nil => exact absurd rfl hsep
    | cons a l => rfl
  rw [splitSeq, splitSeq, if_neg (by simp [hne]), if_neg (by simp [hne])]
  have hlt := findSplit_post_length hsep h
  cases hl : s.length with
  | zero =>
    exfalso
    have : s = [] := List.length_eq_zero.mp hl
    subst this
    simp [findSplit] at h
  | succ n =>
    simp only [splitSeqFuel, h]
    have : post.length ≤ n := by omega
    rw [splitSeqFuel_adequate hsep n post.length post this (Nat.le_refl _)]

theorem splitSeq_ne_nil (sep s : List Char) : splitSeq sep s ≠ [] := by
  rw [splitSeq]
  by_cases hsep : sep.isEmpty
  · simp [hsep]
  · rw [if_neg hsep]
    cases s.length with
    | zero => simp [splitSeqFuel]
    | succ n =>
      rw [splitSeqFuel]
      cases hf : findSplit sep s with
      | none => simp
      | some pr => simp

theorem intercalate_cons_of_ne_nil {α : Type} (sep a : List α) {l : List (List α)}
    (h : l ≠ []) :
    List.intercalate sep (a :: l) = a ++ sep ++ List.intercalate sep l := by
  cases l with
  | nil => exact absurd rfl h
  | cons b l' => simp [List.intercalate, List.intersperse, List.append_assoc]

theorem intercalate_splitSeq {sep : List Char} (hsep : sep ≠ []) :
    ∀ s, List.intercalate sep (splitSeq sep s) = s := by
  have H : ∀ n s, s.length ≤ n → List.intercalate sep (splitSeq sep s) = s := by
    intro n
    induction n with
    | zero =>
      intro s hs
      have : s = [] := List.length_eq_zero.mp (Nat.le_zero.mp hs)
      subst this
      rw [splitSeq_of_none (by simp [findSplit])]
      simp [List.intercalate]
    | succ n ih =>
      intro s hs
      cases hf : findSplit sep s with
      | none => rw [splitSeq_of_none hf]; simp [List.intercalate]
      | some pr =>
        obtain ⟨pre, post⟩ := pr
        rw [splitSeq_of_some hsep hf]
        have hlt := findSplit_post_length hsep hf
        rw [intercalate_cons_of_ne_nil sep pre (splitSeq_ne_nil sep post)]
        rw [ih post (by omega)]
        exact (findSplit_eq_append hf).symm
  intro s
  exact H s.length s (Nat.le_refl _)

theorem findSplit_boundary {sep : List Char} (hsep : sep ≠ []) :
    ∀ (pre rest : List Char),
      (∀ t ∈ pre.tails, t ≠ [] → sep.isPrefixOf (t ++ sep ++ rest) = false) →
      findSplit sep (pre ++ sep ++ rest) = some (pre, rest) := by
  intro pre
  induction pre with
  | nil =>
    intro rest _
    cases hs : sep with
    | nil => exact absurd hs hsep
    | cons a sep' =>
      rw [← hs]
      have hshape : sep ++ rest = a :: (sep' ++ rest) := by rw [hs]; rfl
      simp only [List.nil_append]
      rw [hshape, findSplit,
        if_pos (List.isPrefixOf_iff_prefix.mpr ⟨rest, by rw [← hshape]⟩)]
      rw [← hshape, List.drop_left]
  | cons c pre' ih =>
    intro rest h
    have hshape : (c :: pre') ++ sep ++ rest = c :: (pre' ++ sep ++ rest) := rfl
    rw [hshape, findSplit]
    have hfalse : sep.isPrefixOf (c :: (pre' ++ sep ++ rest)) = false := by
      have := h (c :: pre') (by rw [List.tails_cons]; exact List.mem_cons_self _ _)
        (by simp)
      simpa using this
    have hcond : ¬ (sep.isPrefixOf (c :: (pre' ++ sep ++ rest)) = true) := by
      rw [hfalse]; simp
    rw [if_neg hcond]
    rw [ih rest (fun t ht hne =>
      h t (by rw [List.tails_cons]; exact List.mem_cons_of_mem _ ht) hne)]

theorem toNat_ofNat_digit {k : Nat} (h : k < 10) :
    (Char.ofNat (48 + k)).toNat = 48 + k := by
  interval_cases k <;> decide

theorem isAsciiDigit_ofNat_digit {k : Nat} (h : k < 10) :
    isAsciiDigit (Char.ofNat (48 + k)) = true := by
  interval_cases k <;> decide

theorem length_digitsRevChars (w : Nat) : ∀ n, (digitsRevChars w n).length = w := by
  induction w with
  | zero => intro n; rfl
  | succ w ih => intro n; simp [digitsRevChars, ih]

theorem length_padDigits (w n : Nat) : (padDigits w n).length = w := by
  simp [padDigits, length_digitsRevChars]

theorem readDigitsRev_digitsRevChars (w : Nat) :
    ∀ n, readDigitsRev (digitsRevChars w n) = n % 10 ^ w := by
  induction w with
  | zero => intro n; simp [digitsRevChars, readDigitsRev, Nat.mod_one]
  | succ w ih =>
    intro n
    have h1 : n % 10 < 10 := Nat.mod_lt _ (by norm_num)
    rw [digitsRevChars, readDigitsRev, ih (n / 10), toNat_ofNat_digit h1]
    have : (10 : Nat) ^ (w + 1) = 10 * 10 ^ w := by ring
    rw [this, Nat.mod_mul]
    omega

theorem readDigits_padDigits {w n : Nat} (h : n < 10 ^ w) :
    readDigits (padDigits w n) = n := by
  rw [readDigits, padDigits, List.reverse_reverse, readDigitsRev_digitsRevChars,
    Nat.mod_eq_of_lt h]

theorem all_isAsciiDigit_padDigits (w n : Nat) :
    (padDigits w n).all isAsciiDigit = true := by
  rw [padDigits, List.all_eq_true]
  intro c hc
  rw [List.mem_reverse] at hc
  induction w generalizing n with
  | zero => simp [digitsRevChars] at hc
  | succ w ih =>
    rw [digitsRevChars, List.mem_cons] at hc
    cases hc with
    | inl h => subst h; exact isAsciiDigit_ofNat_digit (Nat.mod_lt _ (by norm_num))
    | inr h => exact ih (n / 10) h

theorem parseFixedNat_pad {w n : Nat} (rest : List Char) (h : n < 10 ^ w) :
    parseFixedNat w (padDigits w n ++ rest) = some (n, rest) := by
  rw [parseFixedNat]
  have htake : (padDigits w n ++ rest).take w = padDigits w n :=
    List.take_left' (length_padDigits w n)
  have hdrop : (padDigits w n ++ rest).drop w = rest :=
    List.drop_left' (length_padDigits w n)
  simp only [htake, hdrop]
  rw [if_pos ⟨length_padDigits w n, all_isAsciiDigit_padDigits w n⟩,
    readDigits_padDigits h]

theorem parseFixedNat_pad_nil {w n : Nat} (h : n < 10 ^ w) :
    parseFixedNat w (padDigits w n) = some (n, []) := by
  conv_lhs => rw [← List.append_nil (padDigits w n)]
  exact parseFixedNat_pad [] h

theorem expectChar_cons (c : Char) (rest : List Char) :
    expectChar c (c :: rest) = some rest := by
  simp [expectChar]

theorem parseMicro_pad {u : Nat} (h : u < 10 ^ 6) :
    parseMicro ('.' :: padDigits 6 u) = some u := by
  rw [parseMicro, if_pos rfl, parseFixedNat_pad_nil h]

theorem fromisoformat_isoformat {t : PyDateTime} (h : validPyDateTime t = true) :
    fromisoformatChars (isoformatChars t) = some t := by
  have hv := h
  simp only [validPyDateTime, Bool.and_eq_true, decide_eq_true_eq] at h
  obtain ⟨h1, h2, h3, h4, h5, h6, h7, h8, h9, h10⟩ := h
  rw [isoformatChars, fromisoformatChars]
  rw [parseFixedNat_pad _ (show t.year < 10 ^ 4 by norm_num; omega)]
  simp only [Option.bind_eq_bind, Option.some_bind]
  rw [expectChar_cons]
  simp only [Option.some_bind]
  rw [parseFixedNat_pad _ (show t.month < 10 ^ 2 by norm_num; omega)]
  simp only [Option.some_bind]
  rw [expectChar_cons]
  simp only [Option.some_bind]
  rw [parseFixedNat_pad _ (show t.day < 10 ^ 2 by
    have : daysInMonth t.year t.month ≤ 31 := by
      rw [daysInMonth]
      split
      · split <;> omega
      · split <;> omega
    norm_num; omega)]
  simp only [Option.some_bind]
  rw [expectChar_cons]
  simp only [Option.some_bind]
  rw [parseFixedNat_pad _ (show t.hour < 10 ^ 2 by norm_num; omega)]
  simp only [Option.some_bind]
  rw [expectChar_cons]
  simp only [Option.some_bind]
  rw [parseFixedNat_pad _ (show t.minute < 10 ^ 2 by norm_num; omega)]
  simp only [Option.some_bind]
  rw [expectChar_cons]
  simp only [Option.some_bind]
  by_cases hu : t.microsecond = 0
  · rw [if_pos hu]
    rw [parseFixedNat_pad [] (show t.second < 10 ^ 2 by norm_num; omega)]
    simp only [Option.some_bind]
    rw [show parseMicro [] = some 0 from rfl]
    simp only [Option.some_bind]
    rw [← hu]
    rw [if_pos (show validPyDateTime ⟨t.year, t.month, t.day, t.hour, t.minute,
      t.second, t.microsecond⟩ = true from hv)]
  · rw [if_neg hu]
    rw [parseFixedNat_pad _ (show t.second < 10 ^ 2 by norm_num; omega)]
    simp only [Option.some_bind]
    rw [parseMicro_pad (show t.microsecond < 10 ^ 6 by norm_num; omega)]
    simp only [Option.some_bind]
    rw [if_pos (show validPyDateTime ⟨t.year, t.month, t.day, t.hour, t.minute,
      t.second, t.microsecond⟩ = true from hv)]

theorem findingPasses_wf {f : JVal} (h : wfFinding f = true) (m : Nat) :
    Scratchpad.findingPasses m f = Except.ok (decide (findingLevel f ≥ m)) := by
  cases f with
  | obj kvs =>
    rw [wfFinding] at h
    cases hl : lookupKey kvs ("importance") with
    | none => rw [hl] at h; simp at h
    | some v =>
      cases v with
      | str s =>
        simp [Scratchpad.findingPasses, pySubscript, hl, pyLowerJ, findingLevel,
          Except.bind, bind, pure, Except.pure]
      | null => rw [hl] at h; simp at h
      | bool b => rw [hl] at h; simp at h
      | num n => rw [hl] at h; simp at h
      | arr xs => rw [hl] at h; simp at h
      | obj kvs2 => rw [hl] at h; simp at h
  | null => simp [wfFinding] at h
  | bool b => simp [wfFinding] at h
  | num n => simp [wfFinding] at h
  | str s => simp [wfFinding] at h
  | arr xs => simp [wfFinding] at h

theorem filterMExcept_wf {fs : List JVal} (hwf : wfFindings fs = true) (m : Nat) :
    Scratchpad.filterMExcept (Scratchpad.findingPasses m) fs =
      Except.ok (fs.filter (fun f => decide (findingLevel f ≥ m))) := by
  induction fs with
  | nil => rfl
  | cons f rest ih =>
    rw [wfFindings, List.all_cons, Bool.and_eq_true] at hwf
    obtain ⟨hf, hrest⟩ := hwf
    rw [Scratchpad.filterMExcept, findingPasses_wf hf m, ih hrest]
    simp only [bind, Except.bind, pure, Except.pure, List.filter_cons]

theorem get_findings_wf {s : Scratchpad} (hwf : wfFindings s.findings = true)
    (t : String) :
    s.get_findings t = Except.ok (s.findings.filter
      (fun f => decide (findingLevel f ≥ Scratchpad.getLevel (pyLower t)))) :=
  filterMExcept_wf hwf _

theorem summaryHighTitles_ok {fs : List JVal} (hwf : wfFindings fs = true) :
    ∃ l, Scratchpad.summaryHighTitles fs = Except.ok l := by
  induction fs with
  | nil => exact ⟨[], rfl⟩
  | cons f rest ih =>
    rw [wfFindings, List.all_cons, Bool.and_eq_true] at hwf
    obtain ⟨hf, hrest⟩ := hwf
    obtain ⟨tail, htail⟩ := ih hrest
    cases f with
    | obj kvs =>
      rw [wfFinding, Bool.and_eq_true] at hf
      obtain ⟨himp, htitle⟩ := hf
      cases hl : lookupKey kvs ("importance") with
      | none => rw [hl] at himp; simp at himp
      | some v =>
        cases v with
        | str impStr =>
          cases ht : lookupKey kvs ("title") with
          | none => rw [ht] at htitle; simp at htitle
          | some tv =>
            rw [Scratchpad.summaryHighTitles]
            simp only [pySubscript, hl, ht, pyLowerJ, bind, Except.bind]
            by_cases hc : pyLower impStr = "high" ∨ pyLower impStr = "critical"
            · rw [if_pos hc, htail]
              exact ⟨tv :: tail, rfl⟩
            · rw [if_neg hc, htail]
              exact ⟨tail, rfl⟩
        | null => rw [hl] at himp; simp at himp
        | bool b => rw [hl] at himp; simp at himp
        | num n => rw [hl] at himp; simp at himp
        | arr xs => rw [hl] at himp; simp at himp
        | obj kvs2 => rw [hl] at himp; simp at himp
    | null => simp [wfFinding] at hf
    | bool b => simp [wfFinding] at hf
    | num n => simp [wfFinding] at hf
    | str s2 => simp [wfFinding] at hf
    | arr xs => simp [wfFinding] at hf

theorem get_summary_ok {s : Scratchpad} (hwf : wfFindings s.findings = true)
    (now : PyDateTime) :
    ∃ highs, s.get_summary now = Except.ok (.obj [
      ("start_time", .str (isoformat s.start_time)),
      ("end_time", .str (isoformat now)),
      ("duration_seconds", .num (epochMicros now - epochMicros s.start_time)),
      ("action_count", .num s.actions.length),
      ("finding_count", .num s.findings.length),
      ("context_keys", .arr (s.context.map (fun kv => .str kv.1))),
      ("high_importance_findings", .arr highs)]) := by
  obtain ⟨highs, hh⟩ := summaryHighTitles_ok hwf
  refine ⟨highs, ?_⟩
  rw [Scratchpad.get_summary, hh]
  rfl

theorem lookupKey_dictSet_self {α : Type} (m : List (String × α)) (k : String)
    (v : α) : lookupKey (dictSet m k v) k = some v := by
  induction m with
  | nil => simp [dictSet, lookupKey]
  | cons kv rest ih =>
    obtain ⟨k', v'⟩ := kv
    by_cases h : k' = k
    · simp [dictSet, h, lookupKey]
    · simp [dictSet, h, lookupKey, ih]

theorem keys_dictSet {α : Type} (m : List (String × α)) (k : String) (v : α) :
    (dictSet m k v).map Prod.fst =
      if k ∈ m.map Prod.fst then m.map Prod.fst else m.map Prod.fst ++ [k] := by
  induction m with
  | nil => simp [dictSet]
  | cons kv rest ih =>
    obtain ⟨k', v'⟩ := kv
    by_cases h : k' = k
    · subst h
      simp [dictSet]
    · rw [dictSet, if_neg h]
      by_cases hm : k ∈ rest.map Prod.fst
      · simp only [List.map_cons, ih, if_pos hm]
        rw [if_pos (by simp [hm])]
      · simp only [List.map_cons, ih, if_neg hm]
        rw [if_neg (by simp [hm, Ne.symm h])]
        simp

theorem mem_keys_dictSet_self {α : Type} (m : List (String × α)) (k : String)
    (v : α) : k ∈ (dictSet m k v).map Prod.fst := by
  rw [keys_dictSet]
  by_cases h : k ∈ m.map Prod.fst
  · rw [if_pos h]; exact h
  · rw [if_neg h]; simp

theorem replay_actions (ops : List SpOp) :
    ∀ s : Scratchpad, (replay s ops).actions = s.actions ++ ops.filterMap opAction := by
  induction ops with
  | nil => intro s; simp [replay]
  | cons op ops ih =>
    intro s
    rw [replay, ih]
    cases op with
    | act now ty d det =>
      simp [applyOp, Scratchpad.log_action, opAction, List.filterMap_cons]
    | find now t d imp r e =>
      simp [applyOp, Scratchpad.log_finding, opAction, List.filterMap_cons]
    | ctx k v =>
      simp [applyOp, Scratchpad.add_context, opAction, List.filterMap_cons]

theorem replay_findings (ops : List SpOp) :
    ∀ s : Scratchpad, (replay s ops).findings = s.findings ++ ops.filterMap opFinding := by
  induction ops with
  | nil => intro s; simp [replay]
  | cons op ops ih =>
    intro s
    rw [replay, ih]
    cases op with
    | act now ty d det =>
      simp [applyOp, Scratchpad.log_action, opFinding, List.filterMap_cons]
    | find now t d imp r e =>
      simp [applyOp, Scratchpad.log_finding, opFinding, List.filterMap_cons]
    | ctx k v =>
      simp [applyOp, Scratchpad.add_context, opFinding, List.filterMap_cons]

theorem wfFinding_findingEntry (now : PyDateTime) (t d imp : String)
    (r : Option (List Int)) (e : Option (List (String × JVal))) :
    wfFinding (findingEntry now t d imp r e) = true := rfl

theorem wfFindings_filterMap_opFinding (ops : List SpOp) :
    wfFindings (ops.filterMap opFinding) = true := by
  induction ops with
  | nil => rfl
  | cons op ops ih =>
    cases op with
    | act now ty d det => simpa [List.filterMap_cons, opFinding] using ih
    | ctx k v => simpa [List.filterMap_cons, opFinding] using ih
    | find now t d imp r e =>
      simp only [List.filterMap_cons, opFinding, wfFindings, List.all_cons,
        Bool.and_eq_true]
      exact ⟨wfFinding_findingEntry now t d imp r e, ih⟩

/-- Claim C4 — append-only order preservation: replaying any sequence of
`log_action`/`log_finding`/`add_context` calls on a fresh scratchpad makes
`get_action_history()` return exactly the logged action entries in call
order, and `get_findings("low")` return all logged finding entries in call
order; moreover from any starting state the calls only ever append to the
two logs (no entry is dropped or reordered). -/
theorem append_only_order_preservation (t : PyDateTime) (ops : List SpOp) :
    (replay (Scratchpad.init t) ops).get_action_history = ops.filterMap opAction ∧
    (replay (Scratchpad.init t) ops).get_findings ("low") =
      Except.ok (ops.filterMap opFinding) ∧
    ∀ s : Scratchpad,
      (replay s ops).actions = s.actions ++ ops.filterMap opAction ∧
      (replay s ops).findings = s.findings ++ ops.filterMap opFinding := by
  have hact := replay_actions ops (Scratchpad.init t)
  have hfind := replay_findings ops (Scratchpad.init t)
  have hwf : wfFindings (replay (Scratchpad.init t) ops).findings = true := by
    rw [hfind]
    simpa [Scratchpad.init] using wfFindings_filterMap_opFinding ops
  refine ⟨?_, ?_, fun s => ⟨replay_actions ops s, replay_findings ops s⟩⟩
  · rw [Scratchpad.get_action_history, hact]
    simp [Scratchpad.init]
  · rw [get_findings_wf hwf, hfind]
    have hlvl : Scratchpad.getLevel (pyLower ("low")) = 0 := rfl
    rw [hlvl]
    simp [Scratchpad.init, List.filter_eq_self]

/-- Claim C3 — importance filter monotonicity: on any scratchpad whose
stored findings are well-formed entries, for thresholds drawn from the four
importance names with `t1 ≤ t2` in the importance order, `get_findings t2`
succeeds and is a sublist (same relative order) of the successful
`get_findings t1`. -/
theorem importance_filter_monotone (s : Scratchpad) (t1 t2 : String)
    (hwf : wfFindings s.findings = true)
    (_h1 : t1 ∈ ["low", "medium", "high", "critical"])
    (_h2 : t2 ∈ ["low", "medium", "high", "critical"])
    (hle : Scratchpad.getLevel (pyLower t1) ≤ Scratchpad.getLevel (pyLower t2)) :
    ∃ l1 l2, s.get_findings t1 = Except.ok l1 ∧ s.get_findings t2 = Except.ok l2 ∧
      l2.Sublist l1 := by
  refine ⟨_, _, get_findings_wf hwf t1, get_findings_wf hwf t2, ?_⟩
  apply List.monotone_filter_right
  intro f hf
  simp only [decide_eq_true_eq] at hf ⊢
  omega

/-- Witness for C3 at a concrete two-finding scratchpad with thresholds
`low ≤ high`. -/
theorem importance_filter_monotone_witness :
    ∃ l1 l2,
      (⟨[], [JVal.obj [("importance", .str ("low")), ("title", .str ("A"))],
        JVal.obj [("importance", .str ("critical")), ("title", .str ("B"))]], [],
        ⟨2024, 1, 1, 0, 0, 0, 0⟩⟩ : Scratchpad).get_findings ("low") = Except.ok l1 ∧
      (⟨[], [JVal.obj [("importance", .str ("low")), ("title", .str ("A"))],
        JVal.obj [("importance", .str ("critical")), ("title", .str ("B"))]], [],
        ⟨2024, 1, 1, 0, 0, 0, 0⟩⟩ : Scratchpad).get_findings ("high") = Except.ok l2 ∧
      l2.Sublist l1 :=
  importance_filter_monotone _ ("low") ("high") rfl (by decide) (by decide)
    (by decide)

/-- Claim C10 — unknown importance threshold: when the lowercased
`min_importance` string is not one of the four level names, `get_findings`
neither raises nor filters: on well-formed findings it returns every stored
entry in insertion order, exactly as the `"low"` threshold does. -/
theorem unknown_threshold_returns_all (s : Scratchpad) (t : String)
    (hwf : wfFindings s.findings = true)
    (hunk : lookupKey Scratchpad.importance_levels (pyLower t) = none) :
    s.get_findings t = Except.ok s.findings ∧
    s.get_findings t = s.get_findings ("low") := by
  have hz : Scratchpad.getLevel (pyLower t) = 0 := by
    rw [Scratchpad.getLevel, hunk]
    rfl
  have h1 : s.get_findings t = Except.ok s.findings := by
    rw [get_findings_wf hwf, hz]
    simp [List.filter_eq_self]
  have h2 : s.get_findings ("low") = Except.ok s.findings := by
    rw [get_findings_wf hwf]
    have hlvl : Scratchpad.getLevel (pyLower ("low")) = 0 := rfl
    rw [hlvl]
    simp [List.filter_eq_self]
  exact ⟨h1, h1.trans h2.symm⟩

/-- Witness for C10 at a concrete scratchpad and the unrecognized threshold
string `"URGENT!!"`. -/
theorem unknown_threshold_returns_all_witness :
    (⟨[], [JVal.obj [("importance", .str ("medium")), ("title", .str ("T"))]], [],
      ⟨2023, 6, 1, 12, 0, 0, 0⟩⟩ : Scratchpad).get_findings ("URGENT!!") =
      Except.ok [JVal.obj [("importance", .str ("medium")), ("title", .str ("T"))]] ∧
    (⟨[], [JVal.obj [("importance", .str ("medium")), ("title", .str ("T"))]], [],
      ⟨2023, 6, 1, 12, 0, 0, 0⟩⟩ : Scratchpad).get_findings ("URGENT!!") =
      (⟨[], [JVal.obj [("importance", .str ("medium")), ("title", .str ("T"))]], [],
        ⟨2023, 6, 1, 12, 0, 0, 0⟩⟩ : Scratchpad).get_findings ("low") :=
  unknown_threshold_returns_all _ ("URGENT!!") rfl rfl

/-- Claim C9 — context overwrite: writing key `k` twice leaves the second
value readable via `get_context`, and the context key sequence (which
`get_summary` reports as `context_keys`) lists `k` exactly once. -/
theorem context_overwrite (s : Scratchpad) (now : PyDateTime) (k : String)
    (a b : JVal) (hnd : (s.context.map Prod.fst).Nodup)
    (hwf : wfFindings s.findings = true) :
    ((s.add_context k a).add_context k b).get_context (some k) = b ∧
    ((((s.add_context k a).add_context k b).context.map Prod.fst).count k = 1) ∧
    ∃ summ, ((s.add_context k a).add_context k b).get_summary now = Except.ok summ ∧
      pySubscript summ ("context_keys") = Except.ok
        (.arr ((((s.add_context k a).add_context k b).context.map Prod.fst).map
          JVal.str)) := by
  refine ⟨?_, ?_, ?_⟩
  · show (lookupKey (dictSet (dictSet s.context k a) k b) k).getD .null = b
    rw [lookupKey_dictSet_self]
    rfl
  · show ((dictSet (dictSet s.context k a) k b).map Prod.fst).count k = 1
    rw [keys_dictSet _ k b, if_pos (mem_keys_dictSet_self s.context k a)]
    rw [keys_dictSet _ k a]
    by_cases hm : k ∈ s.context.map Prod.fst
    · rw [if_pos hm]
      exact List.count_eq_one_of_mem hnd hm
    · rw [if_neg hm]
      rw [List.count_append]
      rw [List.count_eq_zero_of_not_mem hm]
      simp
  · obtain ⟨highs, hsum⟩ :=
      @get_summary_ok ((s.add_context k a).add_context k b) hwf now
    refine ⟨_, hsum, ?_⟩
    simp only [pySubscript, lookupKey, String.reduceEq, reduceIte, List.map_map]
    rfl

/-- Witness for C9 on the empty scratchpad with key `"k"` and values
`"a"`, `"b"`. -/
theorem context_overwrite_witness :
    (((Scratchpad.init ⟨2024, 3, 1, 8, 0, 0, 0⟩).add_context ("k") (.str ("a"))).add_context
        ("k") (.str ("b"))).get_context (some ("k")) = .str ("b") ∧
    (((((Scratchpad.init ⟨2024, 3, 1, 8, 0, 0, 0⟩).add_context ("k")
        (.str ("a"))).add_context ("k") (.str ("b"))).context.map Prod.fst).count
        ("k") = 1) ∧
    ∃ summ, (((Scratchpad.init ⟨2024, 3, 1, 8, 0, 0, 0⟩).add_context ("k")
        (.str ("a"))).add_context ("k") (.str ("b"))).get_summary
        ⟨2024, 3, 1, 9, 0, 0, 0⟩ = Except.ok summ ∧
      pySubscript summ ("context_keys") = Except.ok
        (.arr ((((((Scratchpad.init ⟨2024, 3, 1, 8, 0, 0, 0⟩).add_context ("k")
          (.str ("a"))).add_context ("k") (.str ("b"))).context.map Prod.fst)).map
          JVal.str)) :=
  context_overwrite (Scratchpad.init ⟨2024, 3, 1, 8, 0, 0, 0⟩)
    ⟨2024, 3, 1, 9, 0, 0, 0⟩ ("k") (.str ("a")) (.str ("b")) (by decide) rfl

theorem isoformat_data_ne_empty (t : PyDateTime) :
    (isoformat t).data.isEmpty = false := by
  show (isoformatChars t).isEmpty = false
  rw [isoformatChars]
  cases hp : padDigits 4 t.year with
  | nil =>
    exfalso
    have := length_padDigits 4 t.year
    rw [hp] at this
    simp at this
  | cons c cs => simp

theorem from_json_data_obj (now2 t : PyDateTime) (acts finds : List JVal)
    (ctx : List (String × JVal)) (st : String) (summ : JVal)
    (hne : st.data.isEmpty = false) (ht : fromisoformat st = some t) :
    Scratchpad.from_json_data now2 (.obj [
      ("actions", .arr acts), ("findings", .arr finds), ("context", .obj ctx),
      ("start_time", .str st), ("summary", summ)]) =
      Except.ok ⟨acts, finds, ctx, t⟩ := by
  have htr : pyTruthy (.str st) = true := by simp [pyTruthy, hne]
  simp only [Scratchpad.from_json_data, lookupKey]
  simp only [String.reduceEq, reduceIte, Option.getD_some, asPyList, asPyDict,
    htr, ht, bind, Except.bind, if_true]

/-- Claim C1 — JSON round-trip law: on any scratchpad with well-formed
finding entries and a calendar-valid start instant, deserializing the
serialized snapshot (`from_json` of `to_json`, modelled on the JSON tree
`json.dumps`/`json.loads` transport losslessly) restores `actions`,
`findings`, `context` and `start_time` field-for-field; the embedded
`summary` is ignored on read, and the two wall-clock instants (`now` at
save, `now2` at load) do not influence the restored fields. -/
theorem json_round_trip (s : Scratchpad) (now now2 : PyDateTime)
    (hwf : wfFindings s.findings = true)
    (hv : validPyDateTime s.start_time = true) :
    ∃ j s', s.to_dict now = Except.ok j ∧
      Scratchpad.from_json_data now2 j = Except.ok s' ∧
      s'.actions = s.actions ∧ s'.findings = s.findings ∧
      s'.context = s.context ∧ s'.start_time = s.start_time := by
  obtain ⟨highs, hsum⟩ := get_summary_ok hwf now
  refine ⟨.obj [
      ("actions", .arr s.actions), ("findings", .arr s.findings),
      ("context", .obj s.context), ("start_time", .str (isoformat s.start_time)),
      ("summary", .obj [
        ("start_time", .str (isoformat s.start_time)),
        ("end_time", .str (isoformat now)),
        ("duration_seconds", .num (epochMicros now - epochMicros s.start_time)),
        ("action_count", .num s.actions.length),
        ("finding_count", .num s.findings.length),
        ("context_keys", .arr (s.context.map (fun kv => .str kv.1))),
        ("high_importance_findings", .arr highs)])],
    ⟨s.actions, s.findings, s.context, s.start_time⟩, ?_, ?_, rfl, rfl, rfl, rfl⟩
  · rw [Scratchpad.to_dict, hsum]
    rfl
  · exact from_json_data_obj now2 s.start_time s.actions s.findings s.context _ _
      (isoformat_data_ne_empty s.start_time) (fromisoformat_isoformat hv)

/-- Witness for C1 on a concrete scratchpad with one action, one finding,
one context key and distinct save/load instants. -/
theorem json_round_trip_witness :
    ∃ j s', (⟨[actionEntry ⟨2024, 5, 17, 10, 0, 0, 5⟩ ("sql_query") ("ran q") none],
        [findingEntry ⟨2024, 5, 17, 10, 1, 0, 0⟩ ("CTR Drop") ("halved") ("critical")
          none none],
        [(("query"), JVal.str ("why did CTR drop?"))],
        ⟨2024, 5, 17, 9, 59, 58, 123456⟩⟩ : Scratchpad).to_dict
        ⟨2024, 5, 17, 10, 2, 0, 0⟩ = Except.ok j ∧
      Scratchpad.from_json_data ⟨2025, 1, 1, 0, 0, 0, 0⟩ j = Except.ok s' ∧
      s'.actions = [actionEntry ⟨2024, 5, 17, 10, 0, 0, 5⟩ ("sql_query") ("ran q") none] ∧
      s'.findings = [findingEntry ⟨2024, 5, 17, 10, 1, 0, 0⟩ ("CTR Drop") ("halved")
        ("critical") none none] ∧
      s'.context = [(("query"), JVal.str ("why did CTR drop?"))] ∧
      s'.start_time = ⟨2024, 5, 17, 9, 59, 58, 123456⟩ :=
  json_round_trip _ ⟨2024, 5, 17, 10, 2, 0, 0⟩ ⟨2025, 1, 1, 0, 0, 0, 0⟩ rfl rfl

/-- Claim C6, counterexample — `from_json` on the valid JSON text `"[]"`
(whose top-level value is a list, not an object): the call fails with an
`AttributeError` (`'list' object has no attribute 'get'`), which is not the
JSON parse error kind, contradicting the claim that every non-object input
fails with a ParseError. -/
theorem from_json_nonobject_counterexample :
    Scratchpad.from_json (Except.ok (JVal.arr [])) ⟨2024, 1, 1, 0, 0, 0, 0⟩ =
      Except.error PyErr.attributeError ∧
    PyErr.attributeError ≠ PyErr.jsonDecodeError := ⟨rfl, by decide⟩

/-- Claim C6, amended — `from_json` never returns a Scratchpad on bad
input, but the error kinds differ: invalid JSON propagates `json.loads`'s
parse error (`JSONDecodeError`), while valid JSON whose top-level value is
not an object fails with an `AttributeError` (a generic error kind, not a
parse error). -/
theorem from_json_error_kinds (now : PyDateTime) (v : JVal)
    (hv : ∀ kvs, v ≠ JVal.obj kvs) :
    Scratchpad.from_json (Except.error PyErr.jsonDecodeError) now =
      Except.error PyErr.jsonDecodeError ∧
    Scratchpad.from_json (Except.ok v) now = Except.error PyErr.attributeError := by
  refine ⟨rfl, ?_⟩
  show Scratchpad.from_json_data now v = Except.error PyErr.attributeError
  cases v with
  | obj kvs => exact absurd rfl (hv kvs)
  | null => rfl
  | bool b => rfl
  | num n => rfl
  | str s => rfl
  | arr xs => rfl

/-- Witness for the amended C6 at the parsed tree of `"[1]"`. -/
theorem from_json_error_kinds_witness :
    Scratchpad.from_json (Except.error PyErr.jsonDecodeError)
      ⟨2024, 7, 7, 7, 7, 7, 7⟩ = Except.error PyErr.jsonDecodeError ∧
    Scratchpad.from_json (Except.ok (JVal.arr [JVal.num 1]))
      ⟨2024, 7, 7, 7, 7, 7, 7⟩ = Except.error PyErr.attributeError :=
  from_json_error_kinds ⟨2024, 7, 7, 7, 7, 7, 7⟩ (JVal.arr [JVal.num 1])
    (fun _ h => JVal.noConfusion h)

/-- Claim C8 — QueryError containment: when the underlying SQL execution
raises, `SQLTool.run` returns (never raises) the structured failure dict
`{'success': False, 'error': message, 'query': query}`; every non-raising
outcome yields a dict whose `success` flag is `True`, so the flag alone
discriminates failure. -/
theorem query_error_containment (query e : String) :
    SQLTool_run query (.raised e) = .obj [
      ("success", .bool false), ("error", .str e), ("query", .str query)] ∧
    pySubscript (SQLTool_run query (.raised e)) ("success") =
      Except.ok (.bool false) ∧
    ∀ fs data, pySubscript (SQLTool_run query (.rows fs data)) ("success") =
      Except.ok (.bool true) := by
  refine ⟨rfl, rfl, ?_⟩
  intro fs data
  cases data with
  | nil => rfl
  | cons r rs => rfl

/-- Claim C5 — extraction totality: for every input text the extraction
phase produces at least one finding; whenever the section-header pass
emitted nothing, the produced findings are exactly the single fallback
entry titled `"Investigation Results"` whose description is the entire raw
text, with importance `"medium"`. -/
theorem extraction_totality (text : String) :
    extractFindings text ≠ [] ∧
    (fallbackFinding text).title = ("Investigation Results") ∧
    (fallbackFinding text).description = text ∧
    (fallbackFinding text).importance = ("medium") ∧
    (extractSections text = [] → extractFindings text = [fallbackFinding text]) := by
  refine ⟨?_, rfl, rfl, rfl, ?_⟩
  · rw [extractFindings]
    by_cases h : (extractSections text).isEmpty
    · rw [if_pos h]
      simp
    · rw [if_neg h]
      intro hc
      exact h (by rw [hc]; rfl)
  · intro h
    rw [extractFindings, h]
    rfl

/-- Witness for C5 at the spec's scenario input (no structured headings)
and at the empty string. -/
theorem extraction_totality_witness :
    extractFindings ("no structured headings here") =
      [fallbackFinding ("no structured headings here")] ∧
    extractFindings ("") ≠ [] :=
  ⟨(extraction_totality ("no structured headings here")).2.2.2.2 rfl,
    (extraction_totality ("")).1⟩

theorem stripChars_cons_of_neg {p : Char → Bool} {c : Char} (h : p c = false)
    (l : List Char) : stripChars p (c :: l) = c :: dropTrail p l := by
  rw [stripChars, List.dropWhile_cons, h]
  simp only [Bool.false_eq_true, if_false]
  exact dropTrail_cons_of_neg h l

theorem startswith_hash_data {line : String}
    (h : startswithAny line [("#"), ("##"), ("###")] = true) :
    ∃ l, line.data = '#' :: l := by
  rw [startswithAny] at h
  simp only [List.any_cons, List.any_nil, Bool.or_eq_true, Bool.or_false] at h
  rcases h with h | h | h
  · obtain ⟨t, ht⟩ := List.isPrefixOf_iff_prefix.mp h
    exact ⟨t, by rw [← ht]; rfl⟩
  · obtain ⟨t, ht⟩ := List.isPrefixOf_iff_prefix.mp h
    exact ⟨'#' :: t, by rw [← ht]; rfl⟩
  · obtain ⟨t, ht⟩ := List.isPrefixOf_iff_prefix.mp h
    exact ⟨'#' :: '#' :: t, by rw [← ht]; rfl⟩

theorem startswithAny_hash {s : String} {l : List Char} (h : s.data = '#' :: l) :
    startswithAny s [("#"), ("##"), ("###")] = true := by
  rw [startswithAny]
  simp only [List.any_cons, Bool.or_eq_true]
  left
  rw [h]
  exact List.isPrefixOf_iff_prefix.mpr ⟨l, rfl⟩

/-- Claim C7 (amended) — verbose secondary extraction: *when the agent
output contains `"finding"` or `"anomaly"` case-insensitively* (the guard
the original claim omits), every line beginning with a 1–3 `#` heading
marker and longer than two characters is logged by the verbose hook as a
finding with importance `"medium"` and the fixed placeholder description,
independently of the section-header pass. -/
theorem verbose_extract_headings (result line : String)
    (hguard : pyContains ("finding") (pyLower result) = true ∨
      pyContains ("anomaly") (pyLower result) = true)
    (hline : line ∈ pySplit ("\n") result)
    (hmark : startswithAny line [("#"), ("##"), ("###")] = true)
    (hlen : line.length > 2) :
    (⟨pyStrip (pyStripHash line), ("(Extracted from agent output)"),
      ("medium")⟩ : Finding) ∈ verboseExtract result := by
  rw [verboseExtract]
  rw [if_pos (show (pyContains ("finding") (pyLower result) ||
      pyContains ("anomaly") (pyLower result)) = true by
    cases hguard with
    | inl h => simp [h]
    | inr h => simp [h])]
  apply List.mem_filterMap.mpr
  refine ⟨line, hline, ?_⟩
  obtain ⟨l, hl⟩ := startswith_hash_data hmark
  have hstrip : (pyStrip line).data = '#' :: dropTrail isPySpace l := by
    show stripChars isPySpace line.data = _
    rw [hl]
    exact stripChars_cons_of_neg rfl l
  rw [if_pos (show (startswithAny (pyStrip line) [("#"), ("##"), ("###")] &&
      decide (line.length > 2)) = true by
    rw [startswithAny_hash hstrip, decide_eq_true hlen]
    rfl)]

/-- Claim C7, counterexample — the guard is real: the output
`"## Results\nAll metrics nominal."` has a heading line of length > 2, yet
(containing neither "finding" nor "anomaly") the verbose hook logs
nothing, contradicting the unguarded claim. -/
theorem verbose_extract_counterexample :
    verboseExtract ("## Results\nAll metrics nominal.") = [] ∧
    ("## Results") ∈ pySplit ("\n") ("## Results\nAll metrics nominal.") ∧
    startswithAny ("## Results") [("#"), ("##"), ("###")] = true ∧
    (("## Results") : String).length > 2 := ⟨rfl, by decide, rfl, by decide⟩

/-- Witness for the amended C7 on a concrete agent output containing
"finding" and two heading lines. -/
theorem verbose_extract_headings_witness :
    (⟨pyStrip (pyStripHash ("## Key finding")),
      ("(Extracted from agent output)"), ("medium")⟩ : Finding) ∈
      verboseExtract ("intro\n## Key finding\nCTR anomaly confirmed.") :=
  verbose_extract_headings ("intro\n## Key finding\nCTR anomaly confirmed.")
    ("## Key finding") (Or.inl rfl) (by decide) rfl (by decide)

theorem isPrefixOf_append_left {α : Type} [BEq α] [LawfulBEq α]
    (l a b : List α) (h : l.isPrefixOf a = true) :
    l.isPrefixOf (a ++ b) = true := by
  obtain ⟨t, ht⟩ := List.isPrefixOf_iff_prefix.mp h
  exact List.isPrefixOf_iff_prefix.mpr ⟨t ++ b, by rw [← ht, List.append_assoc]⟩

theorem findSplit_single_boundary {c : Char} {pre rest : List Char}
    (h : c ∉ pre) : findSplit [c] (pre ++ [c] ++ rest) = some (pre, rest) := by
  apply findSplit_boundary (by simp)
  intro t ht hne
  cases t with
  | nil => exact absurd rfl hne
  | cons d t' =>
    have hd : d ∈ pre := by
      obtain ⟨u, hu⟩ := List.mem_tails _ _ |>.mp ht
      rw [← hu]
      simp
    have hdc : d ≠ c := fun hdc => h (hdc ▸ hd)
    cases hp : [c].isPrefixOf ((d :: t') ++ [c] ++ rest) with
    | false => rfl
    | true =>
      exfalso
      obtain ⟨u, hu⟩ := List.isPrefixOf_iff_prefix.mp hp
      have hcd : c = d := by
        have h2 : c :: u = d :: (t' ++ [c] ++ rest) := hu
        injection h2 with h3 _
      exact hdc hcd.symm

/-- Claim C2 (amended) — extraction priority: when the section heading
`"## Finding: CTR Drop"` is *preceded by a newline* (i.e. the text is
`pre ++ "\n## " ++ "Finding: CTR Drop\n" ++ body`), no other `"\n## "`
split point occurs in `pre` or in the heading-plus-body, and `pre` itself
does not start with an extraction token, the pass appends exactly one
finding — importance `"high"`, title `"Finding: CTR Drop"`, description
the body trimmed — and the fallback is not appended.  (The original claim,
quantified over *every* text containing the heading, fails when the heading
sits at the very start of the text: the split never isolates it.) -/
theorem extraction_priority_amended (pre body : String)
    (hpre1 : startswithAny (pyLower pre)
      [("finding"), ("anomal"), ("cause"), ("result")] = false)
    (hpre2 : (pre.data.tails).all (fun t => t.isEmpty ||
      !(("\n## ").data.isPrefixOf
        (t ++ ("\n## ").data ++ (("Finding: CTR Drop\n") ++ body).data))) = true)
    (hbody : findSplit ("\n## ").data
      (("Finding: CTR Drop\n") ++ body).data = none) :
    extractFindings (pre ++ ("\n## ") ++ (("Finding: CTR Drop\n") ++ body)) =
      [⟨("Finding: CTR Drop"), pyStrip body, ("high")⟩] := by
  have hdata : (pre ++ ("\n## ") ++ (("Finding: CTR Drop\n") ++ body)).data =
      pre.data ++ ("\n## ").data ++ (("Finding: CTR Drop\n") ++ body).data := by
    rw [String.data_append, String.data_append]
  have hb : ∀ t ∈ pre.data.tails, t ≠ [] →
      ("\n## ").data.isPrefixOf
        (t ++ ("\n## ").data ++ (("Finding: CTR Drop\n") ++ body).data) = false := by
    intro t ht hne
    have hall := List.all_eq_true.mp hpre2 t ht
    cases t with
    | nil => exact absurd rfl hne
    | cons d t' =>
      simp only [List.isEmpty_cons, Bool.false_or, Bool.not_eq_true'] at hall
      exact hall
  have hfs : findSplit ("\n## ").data
      (pre.data ++ ("\n## ").data ++ (("Finding: CTR Drop\n") ++ body).data) =
      some (pre.data, (("Finding: CTR Drop\n") ++ body).data) :=
    findSplit_boundary (by decide) pre.data _ hb
  have hsplit : splitSeq ("\n## ").data
      (pre.data ++ ("\n## ").data ++ (("Finding: CTR Drop\n") ++ body).data) =
      [pre.data, (("Finding: CTR Drop\n") ++ body).data] := by
    rw [splitSeq_of_some (by decide) hfs, splitSeq_of_none hbody]
  have hpreNone : sectionFinding ⟨pre.data⟩ = none := by
    show sectionFinding pre = none
    rw [sectionFinding, if_neg (by rw [hpre1]; exact Bool.false_ne_true)]
  have hS : startswithAny (pyLower (("Finding: CTR Drop\n") ++ body))
      [("finding"), ("anomal"), ("cause"), ("result")] = true := by
    rw [startswithAny]
    simp only [List.any_cons, Bool.or_eq_true]
    left
    show ("finding").data.isPrefixOf
      (pyLower (("Finding: CTR Drop\n") ++ body)).data = true
    have hld : (pyLower (("Finding: CTR Drop\n") ++ body)).data =
        List.map pyCharLower (("Finding: CTR Drop\n").data) ++
          List.map pyCharLower body.data := by
      show List.map pyCharLower ((("Finding: CTR Drop\n") ++ body).data) = _
      rw [String.data_append, List.map_append]
    rw [hld]
    exact isPrefixOf_append_left _ _ _ (by decide)
  have hsd : (("Finding: CTR Drop\n") ++ body).data =
      ("Finding: CTR Drop").data ++ [('\n' : Char)] ++ body.data := by
    rw [String.data_append]
    rfl
  have hnl : findSplit ("\n").data ((("Finding: CTR Drop\n") ++ body).data) =
      some (("Finding: CTR Drop").data, body.data) := by
    rw [hsd]
    exact findSplit_single_boundary (by decide)
  have hlines : splitSeq ("\n").data ((("Finding: CTR Drop\n") ++ body).data) =
      ("Finding: CTR Drop").data :: splitSeq ("\n").data body.data :=
    splitSeq_of_some (by decide) hnl
  have hjoin : pyJoin ("\n")
      ((splitSeq ("\n").data body.data).map (fun l => (⟨l⟩ : String))) = body := by
    rw [pyJoin, List.map_map]
    have hid : (String.data ∘ fun l => (⟨l⟩ : String)) = id := rfl
    rw [hid, List.map_id]
    show (⟨List.intercalate ("\n").data (splitSeq ("\n").data body.data)⟩ : String) = body
    rw [@intercalate_splitSeq (("\n").data) (by decide) body.data]
  have hSsome : sectionFinding ⟨(("Finding: CTR Drop\n") ++ body).data⟩ =
      some ⟨("Finding: CTR Drop"), pyStrip body, ("high")⟩ := by
    show sectionFinding (("Finding: CTR Drop\n") ++ body) = _
    rw [sectionFinding, if_pos hS]
    simp only [pySplit, hlines, List.map_cons, List.headD_cons, List.tail_cons, hjoin]
    rfl
  rw [extractFindings, extractSections, pySplit, hdata, hsplit]
  simp only [List.map_cons, List.map_nil, List.filterMap_cons, List.filterMap_nil,
    hpreNone, hSsome]
  rfl

/-- Claim C2, counterexample — a text that *contains* the heading
`"## Finding: CTR Drop"` (at position 0, with no preceding newline)
but for which the pass appends the fallback instead of the claimed single
HIGH finding: `split("\n## ")` never isolates a heading that starts the
text, so pass 1 emits nothing. -/
theorem extraction_priority_counterexample :
    extractFindings ("## Finding: CTR Drop\nCTR fell by half.") =
      [fallbackFinding ("## Finding: CTR Drop\nCTR fell by half.")] ∧
    (fallbackFinding ("## Finding: CTR Drop\nCTR fell by half.")).title =
      ("Investigation Results") ∧
    (fallbackFinding ("## Finding: CTR Drop\nCTR fell by half.")).importance =
      ("medium") ∧
    ("Investigation Results") ≠ ("Finding: CTR Drop") :=
  ⟨rfl, rfl, rfl, by decide⟩

/-- Witness for the amended C2 on a concrete report with an intro line,
the newline-preceded heading, and a one-line body. -/
theorem extraction_priority_amended_witness :
    extractFindings (("Report intro.") ++ ("\n## ") ++
      (("Finding: CTR Drop\n") ++ ("CTR fell from 4 to 2 percent. "))) =
      [⟨("Finding: CTR Drop"), pyStrip ("CTR fell from 4 to 2 percent. "),
        ("high")⟩] :=
  extraction_priority_amended ("Report intro.") ("CTR fell from 4 to 2 percent. ")
    rfl (by decide) (by decide)
